import Mathlib

/-!
Verification development for the Oryol animation resource manager
(`src/Anim/private/animMgr.cc` / `animMgr.h`).

The manager's state and operations are shallowly embedded below.  C++
machine integers are modelled as `Nat` (with an explicit `% 2 ^ 32` where
wraparound matters, namely the `AnimJobId` counter); IEEE float values are
modelled as rationals (`Val`), which is faithful here because the manager
only stores, copies and moves key values; the only float arithmetic on the
paths under study (`clip.KeyDuration * clip.Length` in `play`) flows into
the abstract sequencer and is never inspected by the manager itself.

Collaborator code that is not part of the repository snapshot under
`src/` (the `Slice` view type with `FillGap`, the resource registry, the
handle pool, `AnimCurveFormat::Stride`, the sentinel `InvalidAnimJobId`)
is modelled from the specification, as marked in the doc comments.
-/

set_option linter.unusedVariables false

namespace Oryol

/-- Float values stored by the manager, modelled as rationals (see the
module comment). -/
abbrev Val := Rat

/-- Opaque 4x4 matrix value (`glm::mat4`); the manager never inspects
matrix contents, it only stores and moves them, so an opaque stand-in
suffices. -/
abbrev Mat := Int

/-- Resource handle: an opaque (type tag, slot, generation) triple with a
distinguished invalid value, mirroring `Oryol::Id` (spec section 6,
"Handle format"). -/
inductive Id where
  | invalid : Id
  | mk (ty : Nat) (slot : Nat) (gen : Nat) : Id
deriving DecidableEq

/-- Mirrors `Id::IsValid()`. -/
def Id.IsValid : Id → Bool
  | .invalid => false
  | .mk _ _ _ => true

/-- Mirrors `Id::Type`.  The invalid id carries no meaningful type; 0 is
outside the three resource type tags. -/
def Id.ty : Id → Nat
  | .invalid => 0
  | .mk t _ _ => t

/-- Resource type tag of libraries, `animMgr.h` line 47. -/
def resTypeLib : Nat := 1

/-- Resource type tag of instances, `animMgr.h` line 48. -/
def resTypeInstance : Nat := 2

/-- Modelled from the spec: the `animMgr.h` snapshot under `src/` omits the
skeleton members used by `animMgr.cc`; spec section 6 fixes the type tags
as "`Library=1`, `Skeleton=3`, `Instance=2`". -/
def resTypeSkeleton : Nat := 3

/-- Modelled from the spec: an Oryol `Slice` is an (offset, length) view
into a pool (spec section 4.1); the underlying buffer pointer and total
length are implicit (each view is always resolved against the pool that
owns it). -/
structure View where
  offset : Nat
  size : Nat
deriving DecidableEq

/-- Default-constructed empty `Slice()`. -/
def View.empty : View := ⟨0, 0⟩

/-- Modelled from the spec: `Slice::FillGap(gapOffset, gapLen)` (spec
section 4.1): a view that begins at or after the erased gap's end shifts
its offset down by the gap length; a view that ends at or before the gap
start is unchanged; a view overlapping the gap is owned by the resource
being erased and is left unchanged here (the spec leaves that case
unspecified and callers never rely on it). -/
def View.FillGap (v : View) (gapOffset gapLen : Nat) : View :=
  if gapOffset + gapLen ≤ v.offset then { v with offset := v.offset - gapLen } else v

/-- Resolve a view against the list holding the pool's elements
(`Slice` dereference). -/
def sliceList (l : List α) (v : View) : List α :=
  (l.drop v.offset).take v.size

/-- Mirrors `Array::EraseRange(offset, len)`: shift the tail down and
shrink the size (spec section 4.2). -/
def eraseRange (l : List α) (off len : Nat) : List α :=
  l.take off ++ l.drop (off + len)

/-- Functional semantics of the overlapping `Memory::Move` in
`animMgr::removeKeys` (`animMgr.cc` line 323): copy `n` elements from
position `src` down to position `dst` (with `dst ≤ src`), reading from the
original buffer, leaving the buffer length unchanged when the source range
is in bounds. -/
def moveDown (buf : List α) (dst src n : Nat) : List α :=
  buf.take dst ++ ((buf.drop src).take n) ++ buf.drop (dst + n)

/-- Resource slot states, mirroring `ResourceState` (external collaborator,
spec section 4.3). -/
inductive ResourceState where
  | Initial | Setup | Valid | Failed
deriving DecidableEq

/-- Modelled from the spec (section 4.3, handle pools are an external
collaborator): a slot+generation allocator.  Each slot is a generation
counter together with the assigned resource (with its state), `none`
when the slot is free.  The fixed `MaxNum...` slot capacity is not
modelled: exhausting a handle pool is a fatal contract violation
(`o_assert`) outside every claim here, so the model simply grows the
slot list in that case, which is observationally equivalent on
executions that stay within capacity. -/
structure ResourcePool (T : Type) where
  typeTag : Nat
  slots : List (Nat × Option (ResourceState × T))
deriving DecidableEq

/-- Allocation helper: find the first free slot, bump its generation, and
report (new slots, slot index, new generation). -/
def allocSlots : List (Nat × Option (ResourceState × T)) →
    Option (List (Nat × Option (ResourceState × T)) × Nat × Nat)
  | [] => none
  | sl :: rest =>
    if sl.2.isNone then some ((sl.1 + 1, none) :: rest, 0, sl.1 + 1)
    else (allocSlots rest).map fun p => (sl :: p.1, p.2.1 + 1, p.2.2)

/-- Mirrors `ResourcePool::AllocId`: take a free slot, bump its generation,
return a handle carrying the pool's type tag. -/
def ResourcePool.allocId (p : ResourcePool T) : ResourcePool T × Id :=
  match allocSlots p.slots with
  | some (slots1, i, g) => ({ p with slots := slots1 }, Id.mk p.typeTag i g)
  | none => ({ p with slots := p.slots ++ [(1, none)] }, Id.mk p.typeTag p.slots.length 1)

/-- Mirrors `ResourcePool::Assign(id, state)`: store the resource in the
handle's slot. -/
def ResourcePool.assign (p : ResourcePool T) (id : Id) (st : ResourceState) (v : T) :
    ResourcePool T :=
  match id with
  | .invalid => p
  | .mk _ slot gen => { p with slots := p.slots.set slot (gen, some (st, v)) }

/-- Mirrors `ResourcePool::UpdateState(id, state)`. -/
def ResourcePool.updateState (p : ResourcePool T) (id : Id) (st : ResourceState) :
    ResourcePool T :=
  match id with
  | .invalid => p
  | .mk _ slot gen =>
    match p.slots.get? slot with
    | some (g, some (_, v)) =>
      if g = gen then { p with slots := p.slots.set slot (g, some (st, v)) } else p
    | _ => p

/-- Mirrors `ResourcePool::Lookup(id)`: the stored resource when the
handle's type tag, slot and generation all match, else null. -/
def ResourcePool.lookup (p : ResourcePool T) (id : Id) : Option T :=
  match id with
  | .invalid => none
  | .mk t slot gen =>
    if t = p.typeTag then
      match p.slots.get? slot with
      | some (g, some (_, v)) => if g = gen then some v else none
      | _ => none
    else none

/-- Mirrors `ResourcePool::Unassign(id)`: free the handle's slot (keeping
the slot's generation so stale handles keep failing lookup). -/
def ResourcePool.unassign (p : ResourcePool T) (id : Id) : ResourcePool T :=
  match id with
  | .invalid => p
  | .mk _ slot gen =>
    match p.slots.get? slot with
    | some (g, _) => if g = gen then { p with slots := p.slots.set slot (g, none) } else p
    | _ => p

/-- Number of used (assigned) slots, `QueryPoolInfo().NumUsedSlots`. -/
def ResourcePool.usedCount (p : ResourcePool T) : Nat :=
  p.slots.countP (fun sl => sl.2.isSome)

/-- The per-slot fixup pass of the `remove*` primitives (`animMgr.cc`
lines 329-334 etc.): iterate the slots up to `LastAllocSlot` and rewrite
the views of every still-valid resource.  Slots past `LastAllocSlot` have
never been assigned, hence hold no resource and are skipped by the
source's `Id.IsValid()` test as well, so mapping over all assigned slots
is observationally identical. -/
def ResourcePool.mapValues (p : ResourcePool T) (f : T → T) : ResourcePool T :=
  { p with slots := p.slots.map (fun sl => (sl.1, sl.2.map (fun sv => (sv.1, f sv.2)))) }

/-- Modelled from the spec (section 6, registry collaborator): one registry
entry, `(locator, handle, label)`.  An anonymous `Locator::NonShared()`
locator is `none`; named locators are `some name`. -/
structure RegEntry where
  locator : Option String
  id : Id
  label : Nat
deriving DecidableEq

/-- Modelled from the spec (section 6): the resource registry and label
stack (`ResourceContainerBase`).  Labels are drawn from a counter so that
`PushLabel` always yields a fresh label. -/
structure ResContainer where
  labelStack : List Nat
  nextLabel : Nat
  registry : List RegEntry
deriving DecidableEq

/-- Registry `Lookup(locator)`: the registered handle, or the invalid
handle when the locator is unknown.  Anonymous entries are never found. -/
def ResContainer.regLookup (rc : ResContainer) (name : String) : Id :=
  match rc.registry.find? (fun e => e.locator = some name) with
  | some e => e.id
  | none => Id.invalid

/-- Registry `Add(locator, id, label)`. -/
def ResContainer.regAdd (rc : ResContainer) (loc : Option String) (id : Id) (label : Nat) :
    ResContainer :=
  { rc with registry := rc.registry ++ [⟨loc, id, label⟩] }

/-- `PeekLabel()`: the top of the label stack. -/
def ResContainer.peekLabel (rc : ResContainer) : Nat :=
  rc.labelStack.headD 0

/-- `PushLabel()`: push a fresh label. -/
def ResContainer.pushLabel (rc : ResContainer) : ResContainer :=
  { rc with labelStack := rc.nextLabel :: rc.labelStack, nextLabel := rc.nextLabel + 1 }

/-- Registry `Remove(label)`: drop and return (in registration order) all
handles carrying the label. -/
def ResContainer.regRemove (rc : ResContainer) (label : Nat) : ResContainer × List Id :=
  ({ rc with registry := rc.registry.filter (fun e => e.label ≠ label) },
   (rc.registry.filter (fun e => e.label = label)).map (·.id))

/-- Modelled from the spec (section 6, curve-format collaborator): curve
formats with strides 1..4; `AnimCurveFormat::Stride`. -/
inductive AnimCurveFormat where
  | Float | Float2 | Float3 | Float4
deriving DecidableEq

/-- `AnimCurveFormat::Stride(fmt)`. -/
def AnimCurveFormat.Stride : AnimCurveFormat → Nat
  | .Float => 1
  | .Float2 => 2
  | .Float3 => 3
  | .Float4 => 4

/-- `AnimCurveSetup`: static flag and the 4-float default/static value. -/
structure AnimCurveSetup where
  Static : Bool
  StaticValue : List Val
deriving DecidableEq

/-- `AnimClipSetup`: name, number of keyframes, seconds per key, and one
curve setup per layout position. -/
structure AnimClipSetup where
  Name : String
  Length : Nat
  KeyDuration : Val
  Curves : List AnimCurveSetup
deriving DecidableEq

/-- `AnimLibrarySetup`: locator name, curve layout, clip setups. -/
structure AnimLibrarySetup where
  Name : String
  CurveLayout : List AnimCurveFormat
  Clips : List AnimClipSetup
deriving DecidableEq

/-- `AnimCurve` pool record (`animMgr.cc` lines 151-160).  `KeyIndex` is
the within-clip float offset of the curve's first component, `-1`
(`InvalidIndex`) for static curves; `KeyStride` is 0 for static curves. -/
structure AnimCurve where
  Static : Bool
  Format : AnimCurveFormat
  NumValues : Nat
  StaticValue : List Val
  KeyIndex : Int
  KeyStride : Nat
deriving DecidableEq

/-- `AnimClip` pool record (`animMgr.cc` lines 144-167).  `Curves` is a
view into the curve pool, `Keys` a view into the key region of the value
pool (left default-empty when the clip consumes no keys). -/
structure AnimClip where
  Name : String
  Length : Nat
  KeyDuration : Val
  KeyStride : Nat
  Curves : View
  Keys : View
deriving DecidableEq

/-- `AnimLibrary` resource record (`animMgr.cc` lines 129-173).  The
source also stores the `Id` in the record and tests `lib.Id.IsValid()`
during compaction fixups; in this model slot occupancy (`some` vs `none`
in the handle pool) carries exactly that information. -/
structure AnimLibrary where
  Name : String
  SampleStride : Nat
  CurveLayout : List AnimCurveFormat
  ClipIndexMap : List (String × Nat)
  Clips : View
  Curves : View
  Keys : View
deriving DecidableEq

/-- `AnimSkeleton` resource record (`animMgr.cc` lines 235-250). -/
structure AnimSkeleton where
  Name : String
  NumBones : Nat
  Matrices : View
  BindPose : View
  InvBindPose : View
  ParentIndices : List Int
deriving DecidableEq

/-- One bone of an `AnimSkeletonSetup`. -/
structure AnimBoneSetup where
  ParentIndex : Int
  BindPose : Mat
  InvBindPose : Mat
deriving DecidableEq

/-- `AnimSkeletonSetup`: locator name and bones. -/
structure AnimSkeletonSetup where
  Name : String
  Bones : List AnimBoneSetup
deriving DecidableEq

/-- `animInstance` resource record.  The source stores raw
`AnimLibrary*` / `AnimSkeleton*` pointers resolved at creation; the model
stores the looked-up value (`none` models a null pointer). -/
structure animInstance where
  library : Option AnimLibrary
  skeleton : Option AnimSkeleton
  samples : View
  skinMatrices : View
deriving DecidableEq

/-- `AnimInstanceSetup`: library handle and optional skeleton handle. -/
structure AnimInstanceSetup where
  Library : Id
  Skeleton : Id
deriving DecidableEq

/-- `AnimJob`: only `ClipIndex` is read by the manager itself
(`animMgr.cc` line 447); the remaining fields (track index, priority,
fade durations) flow only into the abstract sequencer. -/
structure AnimJob where
  ClipIndex : Nat
deriving DecidableEq

/-- Modelled from the spec (section 6, sentinels; `Anim/AnimTypes.h` is
not in the `src/` snapshot): `AnimJobId` is an unsigned 32-bit counter
value and `InvalidAnimJobId = 0`. -/
abbrev AnimJobId := Nat

/-- The invalid job id sentinel, spec section 6. -/
def InvalidAnimJobId : AnimJobId := 0

/-- Modulus of the 32-bit job-id counter. -/
def animJobIdMod : Nat := 2 ^ 32

/-- The manager state (`animMgr.h`).  The fixed pool capacities from
`AnimSetup` are carried as fields; `keyPool` is the key region of the
value pool as a fixed-length buffer (length `keyCapacity`) whose live
prefix is `numKeys` floats long; the sample region is tracked by
`numSamples` against `sampleCapacity` (its float contents are written
only by the sequencer evaluation, which is abstract).  `activeInstances`
holds, for each registered active instance pointer, the instance's
library `SampleStride` (the only field of the pointee the manager reads
on that path). -/
structure animMgr where
  clipCapacity : Nat
  curveCapacity : Nat
  matrixCapacity : Nat
  keyCapacity : Nat
  sampleCapacity : Nat
  activeCapacity : Nat
  libPool : ResourcePool AnimLibrary
  skelPool : ResourcePool AnimSkeleton
  instPool : ResourcePool animInstance
  clipPool : List AnimClip
  curvePool : List AnimCurve
  matrixPool : List Mat
  numKeys : Nat
  keyPool : List Val
  resContainer : ResContainer
  activeInstances : List Nat
  numSamples : Nat
  inFrame : Bool
  curAnimJobId : Nat
  curTime : Val
deriving DecidableEq

/-- Inner loop of the library builder (`animMgr.cc` lines 149-161): append
one curve per layout position, threading the clip's running `KeyStride`
(which doubles as the next non-static curve's `KeyIndex`).  The setup
curves and the layout are zipped: the precheck (line 112) has already
guaranteed equal lengths on this path. -/
def buildClipCurves : List (AnimCurveSetup × AnimCurveFormat) → Nat → List AnimCurve × Nat
  | [], ks => ([], ks)
  | (cs, fmt) :: rest, ks =>
    let stride := fmt.Stride
    let curve : AnimCurve :=
      { Static := cs.Static
        Format := fmt
        NumValues := stride
        StaticValue := cs.StaticValue
        KeyIndex := if cs.Static then -1 else (ks : Int)
        KeyStride := if cs.Static then 0 else stride }
    let ks1 := if cs.Static then ks else ks + stride
    let (more, ksFinal) := buildClipCurves rest ks1
    (curve :: more, ksFinal)

/-- Accumulator of the per-clip layout loop (`animMgr.cc` lines 142-168):
the clip and curve pools being extended, the `ClipIndexMap` being built,
and the running key cursor `clipKeyIndex`. -/
structure ClipBuildAcc where
  clipPool : List AnimClip
  curvePool : List AnimCurve
  clipIndexMap : List (String × Nat)
  clipKeyIndex : Nat

/-- Per-clip layout loop of the library builder (`animMgr.cc` lines
142-168).  Note on line 148: the outer `const int curveIndex =
curvePool.Size()` is shadowed by the loop variable of lines 149-161, but
the `MakeSlice` on line 162 runs after the loop and therefore reads the
outer constant, the curve-pool size before this clip's curves were
appended; the model uses that value directly. -/
def buildClips (layout : List AnimCurveFormat) :
    List AnimClipSetup → ClipBuildAcc → ClipBuildAcc
  | [], acc => acc
  | cs :: rest, acc =>
    let curveBase := acc.curvePool.length
    let (newCurves, keyStride) := buildClipCurves (cs.Curves.zip layout) 0
    let clipNumKeys := keyStride * cs.Length
    let clip : AnimClip :=
      { Name := cs.Name
        Length := cs.Length
        KeyDuration := cs.KeyDuration
        KeyStride := keyStride
        Curves := ⟨curveBase, cs.Curves.length⟩
        Keys := if clipNumKeys > 0 then ⟨acc.clipKeyIndex, clipNumKeys⟩ else View.empty }
    buildClips layout rest
      { clipPool := acc.clipPool ++ [clip]
        curvePool := acc.curvePool ++ newCurves
        clipIndexMap := acc.clipIndexMap ++ [(cs.Name, acc.clipPool.length)]
        clipKeyIndex := acc.clipKeyIndex + clipNumKeys }

/-- The validation-and-key-budget loop of the precheck (`animMgr.cc` lines
110-121): `none` when some clip's curve count differs from the layout
size (the source warns and returns the invalid handle at the first such
clip), else the total number of keys the library will consume. -/
def libNumKeysOf (layout : List AnimCurveFormat) : List AnimClipSetup → Option Nat
  | [] => some 0
  | cs :: rest =>
    if cs.Curves.length = layout.length then
      let clipKeys := ((cs.Curves.zip layout).filter (fun p => !p.1.Static)).foldl
        (fun a p => a + cs.Length * p.2.Stride) 0
      (libNumKeysOf layout rest).map (fun n => clipKeys + n)
    else none

/-- Write consecutive values into the key buffer starting at `pos`
(the `clip.Keys[offset++] = ...` stores of `animMgr.cc` line 181). -/
def writeList (buf : List Val) (pos : Nat) : List Val → List Val
  | [] => buf
  | v :: rest => writeList (buf.set pos v) (pos + 1) rest

/-- One keyframe row of default values: for each curve of the clip in
layout order, its first `KeyStride` static-value components (`animMgr.cc`
lines 179-183; static curves contribute nothing since their `KeyStride`
is 0). -/
def curveRowValues (curves : List AnimCurve) : List Val :=
  curves.foldl (fun a c => a ++ c.StaticValue.take c.KeyStride) []

/-- Default-fill of one clip's key range (`animMgr.cc` lines 176-185):
row `row` of the clip's key view receives the row of default values. -/
def fillClip (curvePool : List AnimCurve) (buf : List Val) (clip : AnimClip) : List Val :=
  (List.range clip.Length).foldl
    (fun b row =>
      writeList b (clip.Keys.offset + row * clip.KeyStride)
        (curveRowValues (sliceList curvePool clip.Curves)))
    buf

/-- Mirrors `animMgr::createLibrary` (`animMgr.cc` lines 87-190).  The
debug asserts on entry (valid locator, non-empty layout, non-empty clip
list) are contract violations outside the embedded state space.  Note
line 106: the curve-pool precheck adds only `CurveLayout.Size()`, not the
`Clips.Size() * CurveLayout.Size()` curves the builder then appends; the
model reproduces that faithfully. -/
def animMgr.createLibrary (s : animMgr) (libSetup : AnimLibrarySetup) : animMgr × Id :=
  -- lines 94-99: deduplication by locator
  let resId0 := s.resContainer.regLookup libSetup.Name
  if resId0.IsValid then (s, resId0)
  -- lines 102-105: clip pool precheck
  else if s.clipPool.length + libSetup.Clips.length > s.clipCapacity then (s, Id.invalid)
  -- lines 106-109: curve pool precheck (adds the layout size only)
  else if s.curvePool.length + libSetup.CurveLayout.length > s.curveCapacity then
    (s, Id.invalid)
  else
    -- lines 110-121: per-clip curve-count validation and key budget
    match libNumKeysOf libSetup.CurveLayout libSetup.Clips with
    | none => (s, Id.invalid)
    | some libNumKeys =>
      -- lines 122-125: key pool precheck
      if s.numKeys + libNumKeys > s.keyCapacity then (s, Id.invalid)
      else
        -- lines 128-129: allocate the handle, assign in state Setup
        let alloc := s.libPool.allocId
        let libPool1 := alloc.1
        let resId := alloc.2
        -- lines 131-137: sample stride and layout copy
        let sampleStride := libSetup.CurveLayout.foldl (fun a f => a + f.Stride) 0
        let curvePoolIndex := s.curvePool.length
        let clipPoolIndex := s.clipPool.length
        -- lines 141-168: per-clip layout
        let acc := buildClips libSetup.CurveLayout libSetup.Clips
          ⟨s.clipPool, s.curvePool, [], s.numKeys⟩
        -- lines 170-173: aggregate views
        let lib : AnimLibrary :=
          { Name := libSetup.Name
            SampleStride := sampleStride
            CurveLayout := libSetup.CurveLayout
            ClipIndexMap := acc.clipIndexMap
            Clips := ⟨clipPoolIndex, libSetup.Clips.length⟩
            Curves := ⟨curvePoolIndex, libSetup.Clips.length * libSetup.CurveLayout.length⟩
            Keys := ⟨s.numKeys, libNumKeys⟩ }
        -- lines 176-185: default-fill the new clips' key ranges
        let keyPool1 := (acc.clipPool.drop clipPoolIndex).foldl
          (fun b c => fillClip acc.curvePool b c) s.keyPool
        -- lines 187-189: register under the current label, mark Valid
        ({ s with
            libPool := ((libPool1.assign resId ResourceState.Setup lib).updateState
              resId ResourceState.Valid)
            clipPool := acc.clipPool
            curvePool := acc.curvePool
            numKeys := s.numKeys + libNumKeys
            keyPool := keyPool1
            resContainer := s.resContainer.regAdd (some libSetup.Name) resId
              (s.resContainer.peekLabel) },
         resId)

/-- Mirrors `animMgr::lookupLibrary` (`animMgr.cc` lines 193-198); the
type-tag assert is folded into the pool lookup. -/
def animMgr.lookupLibrary (s : animMgr) (resId : Id) : Option AnimLibrary :=
  s.libPool.lookup resId

/-- Mirrors `animMgr::lookupSkeleton` (`animMgr.cc` lines 259-264). -/
def animMgr.lookupSkeleton (s : animMgr) (resId : Id) : Option AnimSkeleton :=
  s.skelPool.lookup resId

/-- Mirrors `animMgr::removeKeys` (`animMgr.cc` lines 315-338).  The
`const int numKeysToMove = numKeys - (offset + size)` is a C `int`; the
move runs only when it is positive, which under `Nat` truncated
subtraction is exactly `offset + size < numKeys`.  The final
`numKeys -= range.Size()` is guarded in the source only by a debug
assert that the result is non-negative; `Nat` subtraction models the
in-contract executions. -/
def animMgr.removeKeys (s : animMgr) (range : View) : animMgr :=
  if range.size = 0 then s
  else
    let numKeysToMove := s.numKeys - (range.offset + range.size)
    let keyPool1 :=
      if 0 < numKeysToMove then
        moveDown s.keyPool range.offset (range.offset + range.size) numKeysToMove
      else s.keyPool
    { s with
        keyPool := keyPool1
        numKeys := s.numKeys - range.size
        libPool := s.libPool.mapValues
          (fun lib => { lib with Keys := lib.Keys.FillGap range.offset range.size })
        clipPool := s.clipPool.map
          (fun clip => { clip with Keys := clip.Keys.FillGap range.offset range.size }) }

/-- Mirrors `animMgr::removeCurves` (`animMgr.cc` lines 341-355). -/
def animMgr.removeCurves (s : animMgr) (range : View) : animMgr :=
  { s with
      curvePool := eraseRange s.curvePool range.offset range.size
      libPool := s.libPool.mapValues
        (fun lib => { lib with Curves := lib.Curves.FillGap range.offset range.size })
      clipPool := s.clipPool.map
        (fun clip => { clip with Curves := clip.Curves.FillGap range.offset range.size }) }

/-- Mirrors `animMgr::removeClips` (`animMgr.cc` lines 358-369). -/
def animMgr.removeClips (s : animMgr) (range : View) : animMgr :=
  { s with
      clipPool := eraseRange s.clipPool range.offset range.size
      libPool := s.libPool.mapValues
        (fun lib => { lib with Clips := lib.Clips.FillGap range.offset range.size }) }

/-- Mirrors `animMgr::removeMatrices` (`animMgr.cc` lines 372-384); note
the source fixes up only `BindPose` and `InvBindPose`, not the aggregate
`Matrices` view. -/
def animMgr.removeMatrices (s : animMgr) (range : View) : animMgr :=
  { s with
      matrixPool := eraseRange s.matrixPool range.offset range.size
      skelPool := s.skelPool.mapValues
        (fun skel =>
          { skel with
              BindPose := skel.BindPose.FillGap range.offset range.size
              InvBindPose := skel.InvBindPose.FillGap range.offset range.size }) }

/-- Mirrors `animMgr::destroyLibrary` (`animMgr.cc` lines 201-211).  The
source reads the library record once through the lookup pointer; the
intermediate fixup passes never modify the specific fields read after
them (`removeClips` rewrites only `Clips` views, `removeCurves` only
`Curves` views), so using the snapshot is observationally identical.
`lib->clear()` resets the record's fields just before the slot is
unassigned; the composite effect is the slot becoming free. -/
def animMgr.destroyLibrary (s : animMgr) (id : Id) : animMgr :=
  match s.libPool.lookup id with
  | some lib =>
    let s1 := s.removeClips lib.Clips
    let s2 := s1.removeCurves lib.Curves
    let s3 := s2.removeKeys lib.Keys
    { s3 with libPool := s3.libPool.unassign id }
  | none => { s with libPool := s.libPool.unassign id }

/-- Mirrors `animMgr::destroySkeleton` (`animMgr.cc` lines 267-275). -/
def animMgr.destroySkeleton (s : animMgr) (id : Id) : animMgr :=
  match s.skelPool.lookup id with
  | some skel =>
    let s1 := s.removeMatrices skel.Matrices
    { s1 with skelPool := s1.skelPool.unassign id }
  | none => { s with skelPool := s.skelPool.unassign id }

/-- Mirrors `animMgr::destroyInstance` (`animMgr.cc` lines 305-312):
`inst->clear()` resets the record, then the slot is unassigned. -/
def animMgr.destroyInstance (s : animMgr) (id : Id) : animMgr :=
  { s with instPool := s.instPool.unassign id }

/-- Mirrors `animMgr::destroy(label)` (`animMgr.cc` lines 64-84):
remove all handles under the label from the registry, then dispatch each
on its type tag (an unknown tag is a debug-assert contract violation and
leaves the state unchanged). -/
def animMgr.destroy (s : animMgr) (label : Nat) : animMgr :=
  let rm := s.resContainer.regRemove label
  rm.2.foldl
    (fun st id =>
      if id.ty = resTypeLib then st.destroyLibrary id
      else if id.ty = resTypeSkeleton then st.destroySkeleton id
      else if id.ty = resTypeInstance then st.destroyInstance id
      else st)
    { s with resContainer := rm.1 }

/-- Mirrors `animMgr::createSkeleton` (`animMgr.cc` lines 214-256). -/
def animMgr.createSkeleton (s : animMgr) (setup : AnimSkeletonSetup) : animMgr × Id :=
  -- lines 220-225: deduplication by locator
  let resId0 := s.resContainer.regLookup setup.Name
  if resId0.IsValid then (s, resId0)
  -- lines 228-231: matrix pool precheck
  else if s.matrixPool.length + setup.Bones.length * 2 > s.matrixCapacity then
    (s, Id.invalid)
  else
    let alloc := s.skelPool.allocId
    let resId := alloc.2
    let matrixPoolIndex := s.matrixPool.length
    let numBones := setup.Bones.length
    let skel : AnimSkeleton :=
      { Name := setup.Name
        NumBones := numBones
        Matrices := ⟨matrixPoolIndex, numBones * 2⟩
        BindPose := ⟨matrixPoolIndex, numBones⟩
        InvBindPose := ⟨matrixPoolIndex + numBones, numBones⟩
        ParentIndices := setup.Bones.map (·.ParentIndex) }
    ({ s with
        skelPool := ((alloc.1.assign resId ResourceState.Setup skel).updateState
          resId ResourceState.Valid)
        matrixPool := s.matrixPool ++ setup.Bones.map (·.BindPose)
          ++ setup.Bones.map (·.InvBindPose)
        resContainer := s.resContainer.regAdd (some setup.Name) resId
          (s.resContainer.peekLabel) },
     resId)

/-- Mirrors `animMgr::createInstance` (`animMgr.cc` lines 278-294).  The
slot is allocated and assigned before the library is resolved; the
lookups feed `o_assert_dbg`s (fatal only in debug builds), after which
the instance is registered anonymously and marked Valid and its (possibly
invalid) handle returned. -/
def animMgr.createInstance (s : animMgr) (setup : AnimInstanceSetup) : animMgr × Id :=
  let alloc := s.instPool.allocId
  let resId := alloc.2
  let inst : animInstance :=
    { library := s.lookupLibrary setup.Library
      skeleton := if setup.Skeleton.IsValid then s.lookupSkeleton setup.Skeleton else none
      samples := View.empty
      skinMatrices := View.empty }
  ({ s with
      instPool := ((alloc.1.assign resId ResourceState.Setup inst).updateState
        resId ResourceState.Valid)
      resContainer := s.resContainer.regAdd none resId (s.resContainer.peekLabel) },
   resId)

/-- Mirrors `animMgr::newFrame` (`animMgr.cc` lines 395-405).  Clearing
each previously active instance's `samples` / `skinMatrices` views acts
on the pointed-to instances; the manager-state effect is emptying the
active list and resetting `numSamples`. -/
def animMgr.newFrame (s : animMgr) : animMgr :=
  { s with activeInstances := [], numSamples := 0, inFrame := true }

/-- Mirrors `animMgr::addActiveInstance` (`animMgr.cc` lines 408-428).
The only field of the pointed-to instance the manager reads is
`inst->library->SampleStride`, passed here as `stride`; the only write to
the pointee is `inst->samples = samples.MakeSlice(numSamples, stride)`,
returned here as the view (offsets are relative to the sample region,
exactly as `MakeSlice` on the `samples` slice).  `none` models the
`false` returns. -/
def animMgr.addActiveInstance (s : animMgr) (stride : Nat) : animMgr × Option View :=
  if s.activeInstances.length = s.activeCapacity then (s, none)
  else if s.numSamples + stride > s.sampleCapacity then (s, none)
  else
    ({ s with
        activeInstances := s.activeInstances ++ [stride]
        numSamples := s.numSamples + stride },
     some ⟨s.numSamples, stride⟩)

/-- Run a sequence of `addActiveInstance` calls (one per instance sample
stride), collecting the sample views assigned during the frame. -/
def animMgr.runAdds (s : animMgr) : List Nat → animMgr × List View
  | [] => (s, [])
  | st :: rest =>
    let r1 := s.addActiveInstance st
    let r2 := r1.1.runAdds rest
    (r2.1, (r1.2.elim r2.2 (· :: r2.2)))

/-- Mirrors `animMgr::play` (`animMgr.cc` lines 443-455).  The
`inst->sequencer.garbageCollect(curTime)` on line 445 mutates only the
instance's sequencer, which is opaque (spec section 9); the accept/reject
decision of `inst->sequencer.add(curTime, jobId, job, clipDuration)` is
the oracle `seqAdd`, applied to the same arguments.  The unchecked
`Clips[job.ClipIndex]` indexing on line 447 is embedded as an optional
lookup: `none` is the out-of-range execution, undefined in the source.
`lib` is the dereferenced `inst->library`. -/
def animMgr.play (s : animMgr) (lib : AnimLibrary) (job : AnimJob)
    (seqAdd : Val → AnimJobId → AnimJob → Val → Bool) : Option (animMgr × AnimJobId) :=
  let jobId := (s.curAnimJobId + 1) % animJobIdMod
  let s1 : animMgr := { s with curAnimJobId := jobId }
  match (sliceList s.clipPool lib.Clips).get? job.ClipIndex with
  | none => none
  | some clip =>
    let clipDuration : Val := clip.KeyDuration * (clip.Length : Val)
    if seqAdd s.curTime jobId job clipDuration then some (s1, jobId)
    else some (s1, InvalidAnimJobId)

/-- Push a fresh label on the manager's label stack (the test's
`mgr.resContainer.PushLabel()`). -/
def animMgr.pushLabel (s : animMgr) : animMgr :=
  { s with resContainer := s.resContainer.pushLabel }

/-- Pop the top label (`PopLabel()`). -/
def animMgr.popLabel (s : animMgr) : animMgr :=
  { s with resContainer := { s.resContainer with labelStack := s.resContainer.labelStack.tail } }

/-! Concrete states and setups used to evaluate the operations on explicit
inputs (mirroring the manager set up by `AnimLibraryTest.cc`, scaled down). -/

/-- A small freshly set-up manager: empty pools, default label 0 on the
stack, key buffer of capacity 8. -/
def demoMgr : animMgr :=
  { clipCapacity := 4
    curveCapacity := 8
    matrixCapacity := 8
    keyCapacity := 8
    sampleCapacity := 8
    activeCapacity := 2
    libPool := ⟨resTypeLib, []⟩
    skelPool := ⟨resTypeSkeleton, []⟩
    instPool := ⟨resTypeInstance, []⟩
    clipPool := []
    curvePool := []
    matrixPool := []
    numKeys := 0
    keyPool := List.replicate 8 0
    resContainer := ⟨[0], 1, []⟩
    activeInstances := []
    numSamples := 0
    inFrame := false
    curAnimJobId := 0
    curTime := 0 }

/-- A clip record as laid out by the builder: 2 keyframes of one
single-float animated curve. -/
def demoClip : AnimClip :=
  { Name := "c", Length := 2, KeyDuration := 1/25, KeyStride := 1
    Curves := ⟨0, 1⟩, Keys := ⟨0, 2⟩ }

/-- A library record whose `Clips` view covers the one clip of
`demoPlayMgr`'s clip pool. -/
def demoPlayLib : AnimLibrary :=
  { Name := "L", SampleStride := 1, CurveLayout := [.Float]
    ClipIndexMap := [("c", 0)], Clips := ⟨0, 1⟩, Curves := ⟨0, 1⟩, Keys := ⟨0, 2⟩ }

/-- Manager holding `demoClip`, job-id counter at 0. -/
def demoPlayMgr : animMgr := { demoMgr with clipPool := [demoClip], numKeys := 2 }

/-- `demoPlayMgr` with the 32-bit job-id counter one step before
wraparound. -/
def wrapPlayMgr : animMgr := { demoPlayMgr with curAnimJobId := 2 ^ 32 - 1 }

/-- Sequencer oracle that accepts every job insertion. -/
def acceptAdd : Val → AnimJobId → AnimJob → Val → Bool := fun _ _ _ _ => true

/-- Sequencer oracle that rejects every job insertion. -/
def rejectAdd : Val → AnimJobId → AnimJob → Val → Bool := fun _ _ _ _ => false

/-- Three consecutive `play` calls (accepted, rejected, accepted) from
`demoPlayMgr`, returning the three returned job ids. -/
def playSeqIds : Option (AnimJobId × AnimJobId × AnimJobId) :=
  (demoPlayMgr.play demoPlayLib ⟨0⟩ acceptAdd).bind fun p1 =>
    (p1.1.play demoPlayLib ⟨0⟩ rejectAdd).bind fun p2 =>
      (p2.1.play demoPlayLib ⟨0⟩ acceptAdd).map fun p3 => (p1.2, p2.2, p3.2)

/-- A curve setup that is static (consumes no keys). -/
def staticCurveSetup : AnimCurveSetup := { Static := true, StaticValue := [9, 10, 11, 12] }

/-- Library setup with two one-curve clips over a one-entry layout: its
builder appends `2 * 1 = 2` curves. -/
def c1Setup : AnimLibrarySetup :=
  { Name := "overflow"
    CurveLayout := [.Float2]
    Clips :=
      [ { Name := "a", Length := 1, KeyDuration := 1/25, Curves := [staticCurveSetup] },
        { Name := "b", Length := 1, KeyDuration := 1/25, Curves := [staticCurveSetup] } ] }

/-- Manager whose curve pool has capacity for only 1 curve. -/
def c1Mgr : animMgr := { demoMgr with curveCapacity := 1 }

/-- A valid one-clip library setup: layout `[Float]`, one animated curve,
3 keyframes, hence a key budget of 3 floats. -/
def c4Setup : AnimLibrarySetup :=
  { Name := "lib"
    CurveLayout := [.Float]
    Clips :=
      [ { Name := "clipA", Length := 3, KeyDuration := 1/25
          Curves := [{ Static := false, StaticValue := [7, 0, 0, 0] }] } ] }

/-- Manager whose registry already holds a skeleton under the name
"sk". -/
def skelRegMgr : animMgr :=
  { demoMgr with
      resContainer := ⟨[0], 1, [⟨some "sk", Id.mk resTypeSkeleton 0 1, 0⟩]⟩ }

/-- One-bone skeleton setup named "sk". -/
def skelSetup : AnimSkeletonSetup :=
  { Name := "sk", Bones := [{ ParentIndex := -1, BindPose := 5, InvBindPose := 6 }] }

/-- A library record for the `removeKeys` witness: keys `[2, 6)` of the
live prefix. -/
def rkLib : AnimLibrary :=
  { Name := "R", SampleStride := 1, CurveLayout := [.Float]
    ClipIndexMap := [("c", 0)], Clips := ⟨0, 1⟩, Curves := ⟨0, 1⟩, Keys := ⟨2, 4⟩ }

/-- Manager with 6 live keys `[10, 11, 12, 13, 14, 15]`, one library
(keys `[2, 6)`) and one clip (keys `[4, 6)`) in its pools. -/
def rkMgr : animMgr :=
  { demoMgr with
      numKeys := 6
      keyPool := [10, 11, 12, 13, 14, 15, 0, 0]
      libPool := ⟨resTypeLib, [(1, some (ResourceState.Valid, rkLib))]⟩
      clipPool := [{ Name := "c", Length := 2, KeyDuration := 1/25, KeyStride := 1
                     Curves := ⟨0, 1⟩, Keys := ⟨4, 2⟩ }] }

/-- Instance setup naming a library handle that no pool entry backs. -/
def bogusInstSetup : AnimInstanceSetup := ⟨Id.mk resTypeLib 0 1, Id.invalid⟩

/-- The clip/curve/key layout the library builder computes for a setup,
starting from the manager's current pools (the accumulator state after
the per-clip loop of `animMgr.cc` lines 141-168). -/
def builtAcc (s : animMgr) (setup : AnimLibrarySetup) : ClipBuildAcc :=
  buildClips setup.CurveLayout setup.Clips ⟨s.clipPool, s.curvePool, [], s.numKeys⟩

/-- The library record the builder installs for a setup admitted with key
budget `k` (`animMgr.cc` lines 129-173). -/
def builtLib (s : animMgr) (setup : AnimLibrarySetup) (k : Nat) : AnimLibrary :=
  { Name := setup.Name
    SampleStride := setup.CurveLayout.foldl (fun a f => a + f.Stride) 0
    CurveLayout := setup.CurveLayout
    ClipIndexMap := (builtAcc s setup).clipIndexMap
    Clips := ⟨s.clipPool.length, setup.Clips.length⟩
    Curves := ⟨s.curvePool.length, setup.Clips.length * setup.CurveLayout.length⟩
    Keys := ⟨s.numKeys, k⟩ }

/-! Helper lemmas about the slot-allocation, assignment and fixup
machinery.  These are shared by several of the claim theorems below. -/

theorem allocSlots_spec {T : Type} (sl : List (Nat × Option (ResourceState × T))) :
    ∀ sl1 i g, allocSlots sl = some (sl1, i, g) →
      sl1.get? i = some (g, none) ∧
      sl1.countP (fun x => x.2.isSome) = sl.countP (fun x => x.2.isSome) ∧
      ∀ j, j ≠ i → sl1.get? j = sl.get? j := by
  induction sl with
  | nil => intro sl1 i g h; simp [allocSlots] at h
  | cons sl0 rest ih =>
    intro sl1 i g h
    rw [allocSlots] at h
    split at h
    case isTrue h0 =>
      rw [Option.some.injEq] at h
      have h1 : (sl0.1 + 1, (none : Option (ResourceState × T))) :: rest = sl1 :=
        congrArg Prod.fst h
      have h2 : 0 = i := congrArg (fun x => x.2.1) h
      have h3 : sl0.1 + 1 = g := congrArg (fun x => x.2.2) h
      subst h1; subst h2; subst h3
      refine ⟨rfl, ?_, ?_⟩
      · have : sl0.2 = none := Option.isNone_iff_eq_none.mp h0
        simp [List.countP_cons, this]
      · intro j hj
        cases j with
        | zero => exact absurd rfl hj
        | succ j => rfl
    case isFalse h0 =>
      rw [Option.map_eq_some'] at h
      obtain ⟨⟨sl2, i2, g2⟩, hrest, heq⟩ := h
      have h1 : sl0 :: sl2 = sl1 := congrArg (·.1) heq
      have h2 : i2 + 1 = i := congrArg (·.2.1) heq
      have h3 : g2 = g := congrArg (·.2.2) heq
      subst h1; subst h2; subst h3
      obtain ⟨ha, hb, hc⟩ := ih sl2 i2 g2 hrest
      refine ⟨ha, ?_, ?_⟩
      · simp [List.countP_cons, hb]
      · intro j hj
        cases j with
        | zero => rfl
        | succ j => exact hc j (fun he => hj (by rw [he]))

theorem get?_lt_length {l : List α} {i : Nat} {a : α} (h : l.get? i = some a) :
    i < l.length := by
  rcases List.get?_eq_some.mp h with ⟨hl, _⟩
  exact hl

theorem install_core {T : Type} (tag : Nat) (slots0 : List (Nat × Option (ResourceState × T)))
    (i g : Nat) (v : T) (hget : slots0.get? i = some (g, none)) :
    ((ResourcePool.mk tag slots0).assign (Id.mk tag i g) ResourceState.Setup v).updateState
        (Id.mk tag i g) ResourceState.Valid =
      ResourcePool.mk tag (slots0.set i (g, some (ResourceState.Valid, v))) := by
  have hlt : i < slots0.length := get?_lt_length hget
  have hm : (slots0.set i (g, some (ResourceState.Setup, v))).get? i
      = some (g, some (ResourceState.Setup, v)) := by
    rw [List.get?_eq_getElem?]
    exact List.getElem?_set_self (by simpa using hlt)
  simp only [ResourcePool.assign, ResourcePool.updateState]
  rw [hm]
  simp [List.set_set]

theorem pool_get?_set_countP {T : Type} (l : List (Nat × Option (ResourceState × T)))
    (i : Nat) (a b : Nat × Option (ResourceState × T)) (hget : l.get? i = some a) :
    (l.set i b).countP (fun x => x.2.isSome) =
      l.countP (fun x => x.2.isSome) - (if a.2.isSome then 1 else 0)
        + (if b.2.isSome then 1 else 0) := by
  have hlt : i < l.length := get?_lt_length hget
  have hgi : l[i] = a := by
    have h2 : l[i]? = some a := by rw [← List.get?_eq_getElem?]; exact hget
    rw [List.getElem?_eq_getElem hlt] at h2
    exact Option.some.injEq .. ▸ h2
  rw [List.countP_set _ _ _ _ hlt, hgi]

theorem install_spec {T : Type} (p : ResourcePool T) (v : T) :
    ((p.allocId.1.assign p.allocId.2 ResourceState.Setup v).updateState
        p.allocId.2 ResourceState.Valid).typeTag = p.typeTag ∧
    ((p.allocId.1.assign p.allocId.2 ResourceState.Setup v).updateState
        p.allocId.2 ResourceState.Valid).usedCount = p.usedCount + 1 ∧
    ((p.allocId.1.assign p.allocId.2 ResourceState.Setup v).updateState
        p.allocId.2 ResourceState.Valid).lookup p.allocId.2 = some v ∧
    ∃ slot gen, p.allocId.2 = Id.mk p.typeTag slot gen ∧
      ((p.allocId.1.assign p.allocId.2 ResourceState.Setup v).updateState
          p.allocId.2 ResourceState.Valid).slots.get? slot
        = some (gen, some (ResourceState.Valid, v)) ∧
      ∀ j, j ≠ slot →
        ((p.allocId.1.assign p.allocId.2 ResourceState.Setup v).updateState
            p.allocId.2 ResourceState.Valid).slots.get? j = p.slots.get? j := by
  obtain ⟨tag, slots⟩ := p
  simp only [ResourcePool.allocId]
  cases halloc : allocSlots slots with
  | some res =>
    obtain ⟨sl1, i, g⟩ := res
    obtain ⟨hget, hcount, hother⟩ := allocSlots_spec slots sl1 i g halloc
    dsimp only
    rw [install_core tag sl1 i g v hget]
    have hsetE : (sl1.set i (g, some (ResourceState.Valid, v)))[i]?
        = some (g, some (ResourceState.Valid, v)) :=
      List.getElem?_set_self (by simpa using get?_lt_length hget)
    have hset : (sl1.set i (g, some (ResourceState.Valid, v))).get? i
        = some (g, some (ResourceState.Valid, v)) := by
      rw [List.get?_eq_getElem?]; exact hsetE
    refine ⟨rfl, ?_, ?_, i, g, rfl, hset, ?_⟩
    · show (sl1.set i _).countP _ = slots.countP _ + 1
      rw [pool_get?_set_countP sl1 i _ _ hget, hcount]
      simp
    · simp [ResourcePool.lookup, hsetE]
    · intro j hj
      show (sl1.set i _).get? j = slots.get? j
      rw [List.get?_eq_getElem?, List.getElem?_set_ne (by omega), ← List.get?_eq_getElem?]
      exact hother j hj
  | none =>
    dsimp only
    have hget : (slots ++ [((1 : Nat), (none : Option (ResourceState × T)))]).get? slots.length
        = some (1, none) := List.get?_concat_length slots _
    rw [install_core tag _ slots.length 1 v hget]
    have hsetE : ((slots ++ [((1 : Nat), (none : Option (ResourceState × T)))]).set slots.length
          (1, some (ResourceState.Valid, v)))[slots.length]?
        = some (1, some (ResourceState.Valid, v)) := List.getElem?_set_self (by simp)
    have hset : ((slots ++ [((1 : Nat), (none : Option (ResourceState × T)))]).set slots.length
          (1, some (ResourceState.Valid, v))).get? slots.length
        = some (1, some (ResourceState.Valid, v)) := by
      rw [List.get?_eq_getElem?]; exact hsetE
    refine ⟨rfl, ?_, ?_, slots.length, 1, rfl, hset, ?_⟩
    · show (_ : List _).countP _ = slots.countP _ + 1
      rw [pool_get?_set_countP _ slots.length _ _ hget]
      simp [List.countP_append]
    · simp [ResourcePool.lookup, hsetE]
    · intro j hj
      show ((slots ++ [_]).set slots.length _).get? j = slots.get? j
      rw [List.get?_eq_getElem?, List.getElem?_set_ne (by omega), ← List.get?_eq_getElem?]
      rcases Nat.lt_or_ge j slots.length with hlt | hge
      · exact List.get?_append hlt
      · have hge1 : slots.length + 1 ≤ j := by omega
        rw [List.get?_eq_none.mpr (by simpa using hge1), List.get?_eq_none.mpr hge]

theorem mapValues_usedCount {T : Type} (p : ResourcePool T) (f : T → T) :
    (p.mapValues f).usedCount = p.usedCount := by
  simp only [ResourcePool.mapValues, ResourcePool.usedCount, List.countP_map]
  refine List.countP_congr ?_
  intro a _
  simp [Option.isSome_map']

theorem mapValues_get? {T : Type} (p : ResourcePool T) (f : T → T) (i : Nat) :
    (p.mapValues f).slots.get? i
      = (p.slots.get? i).map (fun sl => (sl.1, sl.2.map (fun sv => (sv.1, f sv.2)))) := by
  simp only [ResourcePool.mapValues]
  rw [List.get?_map]

theorem mapValues_get?_some {T : Type} (p : ResourcePool T) (f : T → T) (i g : Nat)
    (st : ResourceState) (v : T) (h : p.slots.get? i = some (g, some (st, v))) :
    (p.mapValues f).slots.get? i = some (g, some (st, f v)) := by
  rw [mapValues_get? p f i, h]
  rfl

theorem unassign_usedCount {T : Type} (p : ResourcePool T) (t slot gen : Nat)
    (st : ResourceState) (v : T) (h : p.slots.get? slot = some (gen, some (st, v))) :
    (p.unassign (Id.mk t slot gen)).usedCount = p.usedCount - 1 := by
  simp only [ResourcePool.unassign, h, if_pos rfl]
  show (p.slots.set slot _).countP _ = _
  rw [pool_get?_set_countP p.slots slot _ _ h]
  simp [ResourcePool.usedCount]

theorem eraseRange_append_exact (a b : List α) :
    eraseRange (a ++ b) a.length b.length = a := by
  unfold eraseRange
  rw [List.take_left, List.drop_append, List.drop_length, List.append_nil]

theorem buildClipCurves_length (l : List (AnimCurveSetup × AnimCurveFormat)) :
    ∀ ks, (buildClipCurves l ks).1.length = l.length := by
  induction l with
  | nil => intro ks; rfl
  | cons hd tl ih =>
    intro ks
    rw [buildClipCurves]
    simp only [List.length_cons]
    rw [ih]

theorem buildClips_spec (layout : List AnimCurveFormat) (clips : List AnimClipSetup) :
    ∀ acc : ClipBuildAcc,
      ∃ nc nu, (buildClips layout clips acc).clipPool = acc.clipPool ++ nc ∧
        (buildClips layout clips acc).curvePool = acc.curvePool ++ nu ∧
        nc.length = clips.length ∧
        nu.length = (clips.map (fun c => (c.Curves.zip layout).length)).sum := by
  induction clips with
  | nil => intro acc; exact ⟨[], [], by simp [buildClips], by simp [buildClips], rfl, rfl⟩
  | cons cs rest ih =>
    intro acc
    cases hbc : buildClipCurves (cs.Curves.zip layout) 0 with
    | mk newCurves keyStride =>
      have hlen : newCurves.length = (cs.Curves.zip layout).length := by
        have h0 := buildClipCurves_length (cs.Curves.zip layout) 0
        rw [hbc] at h0
        exact h0
      rw [buildClips, hbc]
      dsimp only
      obtain ⟨nc, nu, h1, h2, h3, h4⟩ := ih _
      refine ⟨AnimClip.mk cs.Name cs.Length cs.KeyDuration keyStride
          ⟨acc.curvePool.length, cs.Curves.length⟩
          (if keyStride * cs.Length > 0 then ⟨acc.clipKeyIndex, keyStride * cs.Length⟩
            else View.empty) :: nc, newCurves ++ nu, ?_, ?_, ?_, ?_⟩
      · rw [h1, List.append_assoc]; rfl
      · rw [h2, List.append_assoc]
      · simp [h3]
      · simp [h4, hlen]

theorem libNumKeysOf_curvecount (layout : List AnimCurveFormat) :
    ∀ (clips : List AnimClipSetup) (k : Nat), libNumKeysOf layout clips = some k →
      (clips.map (fun c => (c.Curves.zip layout).length)).sum
        = clips.length * layout.length := by
  intro clips
  induction clips with
  | nil => intro k _; simp
  | cons cs rest ih =>
    intro k h
    rw [libNumKeysOf] at h
    split at h
    case isTrue hlen =>
      rw [Option.map_eq_some'] at h
      obtain ⟨n, hrest, _⟩ := h
      have hs : ((cs :: rest).map (fun c => (c.Curves.zip layout).length)).sum
          = (cs.Curves.zip layout).length
            + (rest.map (fun c => (c.Curves.zip layout).length)).sum := by
        simp
      rw [hs, ih n hrest, List.length_zip, hlen, Nat.min_self, List.length_cons,
        Nat.succ_mul, Nat.add_comm]
    case isFalse => exact absurd h (by simp)

theorem take_len_append_append (A B C : List α) (m : Nat) (hm : m = A.length + B.length) :
    (A ++ B ++ C).take m = A ++ B := by
  subst hm
  rw [List.append_assoc, List.take_append, List.take_left]

/-! Claim C3: removeKeys. -/

/-- C3: for every `removeKeys(R)` call with `R` a non-empty sub-range of
the live key prefix, afterwards `numKeys` has shrunk by `|R|`; every
library's and every clip's `Keys` view with `offset ≥ R.end` has its
offset shifted down by `|R|` and every other such view is unchanged; and
the live key prefix equals the pre-call prefix with the floats of range
`R` deleted. -/
theorem removeKeys_compacts (s : animMgr) (R : View)
    (hpos : 0 < R.size) (hsub : R.offset + R.size ≤ s.numKeys)
    (hlive : s.numKeys ≤ s.keyPool.length) :
    (s.removeKeys R).numKeys = s.numKeys - R.size ∧
    (∀ i g st lib, s.libPool.slots.get? i = some (g, some (st, lib)) →
      (s.removeKeys R).libPool.slots.get? i = some (g, some (st,
        { lib with Keys :=
            if R.offset + R.size ≤ lib.Keys.offset
            then ⟨lib.Keys.offset - R.size, lib.Keys.size⟩ else lib.Keys }))) ∧
    (∀ i clip, s.clipPool.get? i = some clip →
      (s.removeKeys R).clipPool.get? i = some
        { clip with Keys :=
            if R.offset + R.size ≤ clip.Keys.offset
            then ⟨clip.Keys.offset - R.size, clip.Keys.size⟩ else clip.Keys }) ∧
    (s.removeKeys R).keyPool.take ((s.removeKeys R).numKeys)
      = s.keyPool.take R.offset
        ++ (s.keyPool.drop (R.offset + R.size)).take (s.numKeys - (R.offset + R.size)) := by
  have hz : ¬ R.size = 0 := by omega
  refine ⟨?_, ?_, ?_, ?_⟩
  · simp [animMgr.removeKeys, hz]
  · intro i g st lib h
    simp only [animMgr.removeKeys, if_neg hz]
    have := mapValues_get?_some s.libPool
      (fun lib => { lib with Keys := lib.Keys.FillGap R.offset R.size }) i g st lib h
    simpa [View.FillGap] using this
  · intro i clip h
    simp only [animMgr.removeKeys, if_neg hz]
    rw [List.get?_eq_getElem?, List.getElem?_map, ← List.get?_eq_getElem?, h]
    simp [View.FillGap]
  · simp only [animMgr.removeKeys, if_neg hz]
    by_cases hmv : 0 < s.numKeys - (R.offset + R.size)
    · rw [if_pos hmv]
      unfold moveDown
      refine take_len_append_append _ _ _ _ ?_
      rw [List.length_take, List.length_take, List.length_drop]
      omega
    · rw [if_neg hmv]
      have hend : R.offset + R.size = s.numKeys := by omega
      have h4 : s.numKeys - R.size = R.offset := by omega
      rw [h4, hend]
      have h5 : s.numKeys - s.numKeys = 0 := by omega
      rw [h5, List.take_zero, List.append_nil]

/-- Witness for C3: removing keys `[2, 4)` from the 6-key live prefix
`[10, 11, 12, 13, 14, 15]` of `rkMgr` leaves 4 live keys
`[10, 11, 14, 15]`. -/
theorem removeKeys_compacts_witness :
    (rkMgr.removeKeys ⟨2, 2⟩).numKeys = rkMgr.numKeys - 2 ∧
    (rkMgr.removeKeys ⟨2, 2⟩).keyPool.take ((rkMgr.removeKeys ⟨2, 2⟩).numKeys)
      = rkMgr.keyPool.take 2 ++ (rkMgr.keyPool.drop 4).take 2 :=
  ⟨(removeKeys_compacts rkMgr ⟨2, 2⟩ (by decide) (by decide) (by decide)).1,
   (removeKeys_compacts rkMgr ⟨2, 2⟩ (by decide) (by decide) (by decide)).2.2.2⟩

/-! Claim C8: the unchecked clip indexing in play. -/

/-- C8: `play` indexes the library's `Clips` view with `job.ClipIndex`
unchecked; under the precondition that the index is within the view (and
the view within the clip pool), the out-of-range branch of the embedded
optional indexing is unreachable and `play` returns a result. -/
theorem play_clip_index_precondition (s : animMgr) (lib : AnimLibrary) (job : AnimJob)
    (seqAdd : Val → AnimJobId → AnimJob → Val → Bool)
    (hview : lib.Clips.offset + lib.Clips.size ≤ s.clipPool.length)
    (hidx : job.ClipIndex < lib.Clips.size) :
    (s.play lib job seqAdd).isSome = true := by
  have hlen : (sliceList s.clipPool lib.Clips).length = lib.Clips.size := by
    simp only [sliceList, List.length_take, List.length_drop]
    omega
  cases hg : (sliceList s.clipPool lib.Clips).get? job.ClipIndex with
  | none =>
    have := List.get?_eq_none.mp hg
    omega
  | some clip =>
    simp only [animMgr.play, hg]
    split <;> rfl

/-- Witness for C8: playing clip 0 of `demoPlayLib` on `demoPlayMgr`
returns a result. -/
theorem play_clip_index_precondition_witness :
    (demoPlayMgr.play demoPlayLib ⟨0⟩ acceptAdd).isSome = true :=
  play_clip_index_precondition demoPlayMgr demoPlayLib ⟨0⟩ acceptAdd (by decide) (by decide)

/-! Claim C9: every play consumes one job id. -/

/-- C9: every `play` call that runs to completion advances the job-id
counter by exactly one (modulo 2^32), whether or not the sequencer
accepts the job; consequently a rejected `play` consumes an id, and two
consecutive accepted `play` calls can return ids differing by more than
one (here 1 and 3 around a rejected call that returned
`InvalidAnimJobId`). -/
theorem play_increments_counter_always :
    (∀ (s : animMgr) (lib : AnimLibrary) (job : AnimJob)
        (seqAdd : Val → AnimJobId → AnimJob → Val → Bool) (s1 : animMgr) (r : AnimJobId),
      s.play lib job seqAdd = some (s1, r) →
      s1.curAnimJobId = (s.curAnimJobId + 1) % animJobIdMod) ∧
    playSeqIds = some (1, InvalidAnimJobId, 3) := by
  constructor
  · intro s lib job seqAdd s1 r h
    cases hg : (sliceList s.clipPool lib.Clips).get? job.ClipIndex with
    | none => simp only [animMgr.play, hg] at h; exact Option.noConfusion h
    | some clip =>
      simp only [animMgr.play, hg] at h
      split at h <;>
      · rw [Option.some.injEq] at h
        have h1 := congrArg Prod.fst h
        dsimp only at h1
        rw [← h1]
  · decide

/-- Witness for C9: a rejected `play` on `demoPlayMgr` still advances the
counter from 0 to 1. -/
theorem play_increments_counter_always_witness :
    ({ demoPlayMgr with curAnimJobId := 1 }).curAnimJobId
      = (demoPlayMgr.curAnimJobId + 1) % animJobIdMod :=
  play_increments_counter_always.1 demoPlayMgr demoPlayLib ⟨0⟩ rejectAdd
    { demoPlayMgr with curAnimJobId := 1 } InvalidAnimJobId rfl

/-! Claim C5: job-id monotonicity (corrected: wraparound reaches the
invalid id). -/

/-- Counterexample to C5 as stated: with the 32-bit counter one step
before wraparound, a `play` whose insertion the sequencer accepts (a
successful play) returns `InvalidAnimJobId = 0`. -/
theorem play_wraparound_returns_invalid :
    (wrapPlayMgr.play demoPlayLib ⟨0⟩ acceptAdd).map (fun p => p.2)
      = some InvalidAnimJobId := by
  decide

/-- C5 amended: as long as the job-id counter does not wrap (fewer than
2^32 ids allocated), each `play` advances the counter by one and an
accepted `play` returns the fresh id `curAnimJobId + 1`, which is
strictly greater than every earlier id and different from
`InvalidAnimJobId = 0`; at 32-bit wraparound the counter reaches 0 and a
successful play returns the invalid id. -/
theorem play_ids_monotone_below_wrap (s : animMgr) (lib : AnimLibrary) (job : AnimJob)
    (seqAdd : Val → AnimJobId → AnimJob → Val → Bool) (s1 : animMgr) (r : AnimJobId)
    (hwrap : s.curAnimJobId + 1 < animJobIdMod)
    (hplay : s.play lib job seqAdd = some (s1, r)) :
    s1.curAnimJobId = s.curAnimJobId + 1 ∧
    (r = InvalidAnimJobId ∨ (r = s.curAnimJobId + 1 ∧ InvalidAnimJobId < r)) := by
  have hmod : (s.curAnimJobId + 1) % animJobIdMod = s.curAnimJobId + 1 :=
    Nat.mod_eq_of_lt hwrap
  cases hg : (sliceList s.clipPool lib.Clips).get? job.ClipIndex with
  | none => simp only [animMgr.play, hg] at hplay; exact Option.noConfusion hplay
  | some clip =>
    simp only [animMgr.play, hg] at hplay
    split at hplay
    · rw [Option.some.injEq] at hplay
      have h1 := congrArg Prod.fst hplay
      have h2 := congrArg Prod.snd hplay
      dsimp only at h1 h2
      constructor
      · rw [← h1, hmod]
      · exact Or.inr ⟨by rw [← h2, hmod], by rw [← h2, hmod]; exact Nat.succ_pos _⟩
    · rw [Option.some.injEq] at hplay
      have h1 := congrArg Prod.fst hplay
      have h2 := congrArg Prod.snd hplay
      dsimp only at h1 h2
      exact ⟨by rw [← h1, hmod], Or.inl h2.symm⟩

/-- Witness for C5 amended: an accepted `play` on `demoPlayMgr` (counter
0) returns id 1 and advances the counter to 1. -/
theorem play_ids_monotone_below_wrap_witness :
    ({ demoPlayMgr with curAnimJobId := 1 }).curAnimJobId = demoPlayMgr.curAnimJobId + 1 ∧
    ((1 : AnimJobId) = InvalidAnimJobId ∨
      ((1 : AnimJobId) = demoPlayMgr.curAnimJobId + 1 ∧ InvalidAnimJobId < 1)) :=
  play_ids_monotone_below_wrap demoPlayMgr demoPlayLib ⟨0⟩ acceptAdd
    { demoPlayMgr with curAnimJobId := 1 } 1 (by decide) rfl

/-! Claim C6: per-frame sample claims. -/

theorem runAdds_spec (strides : List Nat) :
    ∀ s : animMgr, s.numSamples ≤ s.sampleCapacity →
      (s.runAdds strides).1.sampleCapacity = s.sampleCapacity ∧
      s.numSamples ≤ (s.runAdds strides).1.numSamples ∧
      (s.runAdds strides).1.numSamples ≤ s.sampleCapacity ∧
      (∀ v ∈ (s.runAdds strides).2,
        s.numSamples ≤ v.offset ∧ v.offset + v.size ≤ (s.runAdds strides).1.numSamples) ∧
      (s.runAdds strides).2.Pairwise (fun a b => a.offset + a.size ≤ b.offset) := by
  induction strides with
  | nil =>
    intro s hcap
    exact ⟨rfl, Nat.le_refl _, hcap, by simp [animMgr.runAdds], by simp [animMgr.runAdds]⟩
  | cons st rest ih =>
    intro s hcap
    rw [animMgr.runAdds]
    by_cases h1 : s.activeInstances.length = s.activeCapacity
    · simp only [animMgr.addActiveInstance, if_pos h1]
      exact ih s hcap
    · by_cases h2 : s.numSamples + st > s.sampleCapacity
      · simp only [animMgr.addActiveInstance, if_neg h1, if_pos h2]
        exact ih s hcap
      · simp only [animMgr.addActiveInstance, if_neg h1, if_neg h2, Option.elim]
        obtain ⟨a, b, c, d, e⟩ := ih { s with
          activeInstances := s.activeInstances ++ [st]
          numSamples := s.numSamples + st }
          (by show s.numSamples + st ≤ s.sampleCapacity; omega)
        have b1 : s.numSamples + st
            ≤ (animMgr.runAdds { s with
                activeInstances := s.activeInstances ++ [st]
                numSamples := s.numSamples + st } rest).1.numSamples := b
        have c1 : (animMgr.runAdds { s with
            activeInstances := s.activeInstances ++ [st]
            numSamples := s.numSamples + st } rest).1.numSamples ≤ s.sampleCapacity := c
        have d1 : ∀ v ∈ (animMgr.runAdds { s with
            activeInstances := s.activeInstances ++ [st]
            numSamples := s.numSamples + st } rest).2,
            s.numSamples + st ≤ v.offset ∧
              v.offset + v.size ≤ (animMgr.runAdds { s with
                activeInstances := s.activeInstances ++ [st]
                numSamples := s.numSamples + st } rest).1.numSamples := d
        refine ⟨a, by omega, c1, ?_, ?_⟩
        · intro v hv
          rcases List.mem_cons.mp hv with hv0 | hvt
          · subst hv0
            exact ⟨Nat.le_refl _, b1⟩
          · obtain ⟨k1, k2⟩ := d1 v hvt
            exact ⟨by omega, k2⟩
        · refine List.Pairwise.cons ?_ e
          intro v hv
          obtain ⟨k1, k2⟩ := d1 v hv
          exact k1

/-- C6: an `addActiveInstance` call fails returning `false` with the
manager unchanged exactly when the active list is full or the instance's
sample stride does not fit the remaining sample region; otherwise it
appends the instance, assigns it the sample view at offset `numSamples`,
and advances `numSamples`; consequently all sample views assigned between
a `newFrame` and the frame's evaluation are pairwise disjoint and lie
within `[0, SamplePoolCapacity)`. -/
theorem addActiveInstance_frame_views (s : animMgr) (strides : List Nat)
    (t : animMgr) (stride : Nat) :
    ((t.addActiveInstance stride).2 = none ↔
      (t.activeInstances.length = t.activeCapacity ∨
        t.numSamples + stride > t.sampleCapacity)) ∧
    ((t.addActiveInstance stride).2 = none → (t.addActiveInstance stride).1 = t) ∧
    (∀ v, (t.addActiveInstance stride).2 = some v →
      v = ⟨t.numSamples, stride⟩ ∧
      (t.addActiveInstance stride).1 =
        { t with activeInstances := t.activeInstances ++ [stride],
                 numSamples := t.numSamples + stride }) ∧
    ((s.newFrame.runAdds strides).2.Pairwise
      (fun a b => a.offset + a.size ≤ b.offset ∨ b.offset + b.size ≤ a.offset)) ∧
    (∀ v ∈ (s.newFrame.runAdds strides).2, v.offset + v.size ≤ s.sampleCapacity) := by
  have hframe := runAdds_spec strides s.newFrame (Nat.zero_le _)
  obtain ⟨a, b, c, d, e⟩ := hframe
  refine ⟨?_, ?_, ?_, ?_, ?_⟩
  · unfold animMgr.addActiveInstance
    split
    case isTrue h1 => simp [h1]
    case isFalse h1 =>
      split
      case isTrue h2 => simp [h1, h2]
      case isFalse h2 => simp [h1, h2]
  · unfold animMgr.addActiveInstance
    split
    case isTrue h1 => intro _; rfl
    case isFalse h1 =>
      split
      case isTrue h2 => intro _; rfl
      case isFalse h2 => intro h; exact Option.noConfusion h
  · intro v
    unfold animMgr.addActiveInstance
    split
    case isTrue h1 => intro h; exact Option.noConfusion h
    case isFalse h1 =>
      split
      case isTrue h2 => intro h; exact Option.noConfusion h
      case isFalse h2 =>
        intro h
        rw [Option.some.injEq] at h
        exact ⟨h.symm, rfl⟩
  · exact e.imp (fun h => Or.inl h)
  · intro v hv
    obtain ⟨d1, d2⟩ := d v hv
    have hc : (s.newFrame.runAdds strides).1.numSamples ≤ s.newFrame.sampleCapacity := c
    exact le_trans d2 hc

/-- Witness for C6: on the fresh frame of `demoMgr` (active capacity 2,
sample capacity 8), three stride-3 instances yield two disjoint views and
one rejected call. -/
theorem addActiveInstance_frame_views_witness :
    ((demoMgr.addActiveInstance 3).2 = some ⟨0, 3⟩ → ((⟨0, 3⟩ : View) = ⟨demoMgr.numSamples, 3⟩)) ∧
    ((demoMgr.newFrame.runAdds [3, 3, 3]).2.Pairwise
      (fun a b => a.offset + a.size ≤ b.offset ∨ b.offset + b.size ≤ a.offset)) :=
  ⟨fun h => ((addActiveInstance_frame_views demoMgr [3, 3, 3] demoMgr 3).2.2.1 ⟨0, 3⟩ h).1,
   (addActiveInstance_frame_views demoMgr [3, 3, 3] demoMgr 3).2.2.2.1⟩

/-! Claim C2: createInstance with an unresolvable library handle
(corrected: the source treats it as a debug-assert contract violation and
mutates state first). -/

/-- Counterexample to C2 as stated: on a fresh manager, `createInstance`
with a library handle that resolves to no live library still returns a
valid (fresh) instance handle, and the instance pool has been mutated, so
the call neither returns the invalid handle nor leaves the state
untouched. -/
theorem createInstance_unknown_library_not_recoverable :
    ¬(((demoMgr.createInstance bogusInstSetup).2 = Id.invalid) ∧
        (demoMgr.createInstance bogusInstSetup).1 = demoMgr) ∧
    (demoMgr.createInstance bogusInstSetup).2.IsValid = true ∧
    (demoMgr.createInstance bogusInstSetup).1.instPool.usedCount
      = demoMgr.instPool.usedCount + 1 := by
  refine ⟨?_, by decide, by decide⟩
  intro h
  exact absurd h.1 (by decide)

/-- C2 amended: `createInstance` allocates, assigns and registers the
instance slot before resolving the library handle; when the handle does
not resolve, the lookups feed debug-only asserts (a contract violation in
debug builds), and the call still returns a valid fresh handle whose
instance records a null library, with the instance pool mutated — there
is no recoverable invalid-handle return path. -/
theorem createInstance_allocates_despite_unknown_library (s : animMgr)
    (setup : AnimInstanceSetup) (h : s.lookupLibrary setup.Library = none) :
    (s.createInstance setup).2.IsValid = true ∧
    (s.createInstance setup).1.instPool.usedCount = s.instPool.usedCount + 1 ∧
    ∃ inst, (s.createInstance setup).1.instPool.lookup (s.createInstance setup).2
        = some inst ∧ inst.library = none := by
  obtain ⟨htag, hcount, hlookup, slot, gen, hid, hget, hother⟩ :=
    install_spec s.instPool
      ({ library := s.lookupLibrary setup.Library
         skeleton := if setup.Skeleton.IsValid then s.lookupSkeleton setup.Skeleton else none
         samples := View.empty
         skinMatrices := View.empty } : animInstance)
  refine ⟨?_, ?_, ?_⟩
  · show (s.instPool.allocId.2).IsValid = true
    rw [hid]
    rfl
  · exact hcount
  · refine ⟨_, hlookup, ?_⟩
    exact h

/-- Witness for C2 amended: the bogus handle of `bogusInstSetup` resolves
to no library in `demoMgr`, and the call returns a valid handle having
grown the instance pool. -/
theorem createInstance_allocates_witness :
    demoMgr.lookupLibrary bogusInstSetup.Library = none ∧
    ((demoMgr.createInstance bogusInstSetup).2.IsValid = true ∧
      (demoMgr.createInstance bogusInstSetup).1.instPool.usedCount
        = demoMgr.instPool.usedCount + 1 ∧
      ∃ inst, (demoMgr.createInstance bogusInstSetup).1.instPool.lookup
          (demoMgr.createInstance bogusInstSetup).2 = some inst ∧ inst.library = none) :=
  ⟨by decide,
   createInstance_allocates_despite_unknown_library demoMgr bogusInstSetup (by decide)⟩

/-! Claim C10: createSkeleton deduplicates by locator. -/

/-- C10: when the registry already holds a skeleton setup's name, the
`createSkeleton` call returns the registered handle and the manager state
is entirely unchanged (no matrix-pool append, no new slot, no registry
entry). -/
theorem createSkeleton_dedup (s : animMgr) (setup : AnimSkeletonSetup) (id : Id)
    (hreg : s.resContainer.regLookup setup.Name = id) (hval : id.IsValid = true) :
    s.createSkeleton setup = (s, id) := by
  simp [animMgr.createSkeleton, hreg, hval]

/-- Witness for C10: `skelRegMgr` registers "sk"; creating a skeleton
named "sk" returns the registered handle and changes nothing. -/
theorem createSkeleton_dedup_witness :
    skelRegMgr.createSkeleton skelSetup = (skelRegMgr, Id.mk resTypeSkeleton 0 1) :=
  createSkeleton_dedup skelRegMgr skelSetup (Id.mk resTypeSkeleton 0 1) (by decide) (by decide)

/-! Claim C1: the capacity precheck (code bug: the curve precheck adds
`CurveLayout.Size()` instead of `Clips.Size() * CurveLayout.Size()`). -/

/-- C1 failing input: `c1Mgr` has curve-pool capacity 1 and `c1Setup`
installs `2 clips * 1 layout entry = 2` curves.  The true added curve
count exceeds the remaining capacity, so per the claim the call must fail
with no pool mutated; instead the precheck of `animMgr.cc` line 106 adds
only the layout size (1), passes, and the builder appends 2 curves into
the capacity-1 no-reallocation pool (in the C++ build this overflows the
fixed `Array` reservation of `animMgr.cc` lines 29-30). -/
theorem createLibrary_curve_precheck_undercounts :
    c1Mgr.curvePool.length + c1Setup.Clips.length * c1Setup.CurveLayout.length
        > c1Mgr.curveCapacity ∧
    (c1Mgr.createLibrary c1Setup).2.IsValid = true ∧
    (c1Mgr.createLibrary c1Setup).1.curvePool.length = 2 ∧
    c1Mgr.curveCapacity = 1 := by
  refine ⟨by decide, by decide, by decide, by decide⟩

/-! Claim C7: createLibrary deduplicates by locator. -/

theorem allocId_snd_shape {T : Type} (p : ResourcePool T) :
    ∃ slot gen, p.allocId.2 = Id.mk p.typeTag slot gen := by
  unfold ResourcePool.allocId
  cases allocSlots p.slots with
  | some res =>
    obtain ⟨sl1, i, g⟩ := res
    exact ⟨i, g, rfl⟩
  | none => exact ⟨p.slots.length, 1, rfl⟩

theorem createLibrary_self_pair (s : animMgr) (setup : AnimLibrarySetup) (X : Id)
    (hfst : s.createLibrary setup = (s, X)) :
    (s.createLibrary setup).1.createLibrary setup = s.createLibrary setup := by
  rw [hfst]
  show s.createLibrary setup = (s, X)
  exact hfst

/-- Shape of a successful `createLibrary` call: with the locator unknown
and all three prechecks passing, the call installs the built library and
extends the pools exactly as laid out by `buildClips`, registering the
locator under the current label. -/
theorem createLibrary_success_shape (s : animMgr) (setup : AnimLibrarySetup) (k : Nat)
    (hreg : s.resContainer.regLookup setup.Name = Id.invalid)
    (hc1 : ¬ s.clipPool.length + setup.Clips.length > s.clipCapacity)
    (hc2 : ¬ s.curvePool.length + setup.CurveLayout.length > s.curveCapacity)
    (hk : libNumKeysOf setup.CurveLayout setup.Clips = some k)
    (hc3 : ¬ s.numKeys + k > s.keyCapacity) :
    s.createLibrary setup =
      ({ s with
          libPool := (s.libPool.allocId.1.assign s.libPool.allocId.2 ResourceState.Setup
            (builtLib s setup k)).updateState s.libPool.allocId.2 ResourceState.Valid
          clipPool := (builtAcc s setup).clipPool
          curvePool := (builtAcc s setup).curvePool
          numKeys := s.numKeys + k
          keyPool := ((builtAcc s setup).clipPool.drop s.clipPool.length).foldl
            (fun b c => fillClip (builtAcc s setup).curvePool b c) s.keyPool
          resContainer := s.resContainer.regAdd (some setup.Name) s.libPool.allocId.2
            s.resContainer.peekLabel },
       s.libPool.allocId.2) := by
  simp only [animMgr.createLibrary, hreg, Id.IsValid, Bool.false_eq_true, if_false,
    if_neg hc1, if_neg hc2, hk, if_neg hc3, builtAcc, builtLib]

/-- C7: two successive `createLibrary` calls with the same setup return
the same result, the second leaving the state of the first untouched
(the conclusion equates the full (state, handle) pairs).  The hypothesis
is the registry well-formedness invariant that every registered handle is
valid. -/
theorem createLibrary_dedup (s : animMgr) (setup : AnimLibrarySetup)
    (hval : ∀ e ∈ s.resContainer.registry, e.id.IsValid = true) :
    (s.createLibrary setup).1.createLibrary setup = s.createLibrary setup := by
  by_cases hv : (s.resContainer.regLookup setup.Name).IsValid = true
  · have hfst : s.createLibrary setup = (s, s.resContainer.regLookup setup.Name) := by
      simp only [animMgr.createLibrary, hv, if_true]
    exact createLibrary_self_pair s setup _ hfst
  · have hv2 : (s.resContainer.regLookup setup.Name).IsValid = false := by
      cases hb : (s.resContainer.regLookup setup.Name).IsValid
      · rfl
      · exact absurd hb hv
    have hfind : s.resContainer.registry.find? (fun e => e.locator = some setup.Name)
        = none := by
      cases hf : s.resContainer.registry.find? (fun e => e.locator = some setup.Name) with
      | none => rfl
      | some e =>
        have he : e ∈ s.resContainer.registry := List.mem_of_find?_eq_some hf
        have hev := hval e he
        have hre : s.resContainer.regLookup setup.Name = e.id := by
          unfold ResContainer.regLookup
          rw [hf]
        rw [hre, hev] at hv2
        exact Bool.noConfusion hv2
    have hreg : s.resContainer.regLookup setup.Name = Id.invalid := by
      unfold ResContainer.regLookup
      rw [hfind]
    by_cases hc1 : s.clipPool.length + setup.Clips.length > s.clipCapacity
    · exact createLibrary_self_pair s setup Id.invalid (by
        simp [animMgr.createLibrary, hreg, hc1])
    · by_cases hc2 : s.curvePool.length + setup.CurveLayout.length > s.curveCapacity
      · exact createLibrary_self_pair s setup Id.invalid (by
          simp [animMgr.createLibrary, hreg, hc1, hc2])
      · cases hk : libNumKeysOf setup.CurveLayout setup.Clips with
        | none =>
          exact createLibrary_self_pair s setup Id.invalid (by
            simp [animMgr.createLibrary, hreg, hc1, hc2, hk])
        | some k =>
          by_cases hc3 : s.numKeys + k > s.keyCapacity
          · exact createLibrary_self_pair s setup Id.invalid (by
              simp [animMgr.createLibrary, hreg, hc1, hc2, hk, hc3])
          · have hshape := createLibrary_success_shape s setup k hreg hc1 hc2 hk hc3
            obtain ⟨slot, gen, hidm⟩ := allocId_snd_shape s.libPool
            have hvalid : (s.libPool.allocId.2).IsValid = true := by
              rw [hidm]
              rfl
            have hlook2 : (s.createLibrary setup).1.resContainer.regLookup setup.Name
                = s.libPool.allocId.2 := by
              rw [hshape]
              show (s.resContainer.regAdd (some setup.Name) s.libPool.allocId.2
                s.resContainer.peekLabel).regLookup setup.Name = s.libPool.allocId.2
              unfold ResContainer.regAdd ResContainer.regLookup
              dsimp only
              rw [List.find?_append, hfind]
              simp [List.find?]
            have hsecond : ∀ t : animMgr,
                t.resContainer.regLookup setup.Name = s.libPool.allocId.2 →
                t.createLibrary setup = (t, s.libPool.allocId.2) := by
              intro t hl
              simp only [animMgr.createLibrary, hl, hvalid, if_true]
            rw [hsecond _ hlook2, hshape]

/-- Witness for C7: on the fresh `demoMgr` (empty registry), creating the
same library twice returns identical results with no second mutation. -/
theorem createLibrary_dedup_witness :
    (∀ e ∈ demoMgr.resContainer.registry, e.id.IsValid = true) ∧
    (demoMgr.createLibrary c4Setup).1.createLibrary c4Setup
      = demoMgr.createLibrary c4Setup :=
  ⟨by decide, createLibrary_dedup demoMgr c4Setup (by decide)⟩

/-! Claim C4: create-then-destroy is identity on the pools. -/

theorem removeKeys_numKeys (s : animMgr) (r : View) :
    (s.removeKeys r).numKeys = if r.size = 0 then s.numKeys else s.numKeys - r.size := by
  unfold animMgr.removeKeys
  split
  case isTrue h => rfl
  case isFalse h => rfl

theorem removeKeys_other_fields (s : animMgr) (r : View) :
    (s.removeKeys r).curvePool = s.curvePool ∧
    (s.removeKeys r).matrixPool = s.matrixPool ∧
    (s.removeKeys r).skelPool = s.skelPool ∧
    (s.removeKeys r).instPool = s.instPool ∧
    (s.removeKeys r).resContainer = s.resContainer ∧
    (s.removeKeys r).clipPool.length = s.clipPool.length ∧
    ((s.removeKeys r).libPool = s.libPool ∨
      (s.removeKeys r).libPool = s.libPool.mapValues
        (fun lib => { lib with Keys := lib.Keys.FillGap r.offset r.size })) := by
  unfold animMgr.removeKeys
  split
  · exact ⟨rfl, rfl, rfl, rfl, rfl, rfl, Or.inl rfl⟩
  · exact ⟨rfl, rfl, rfl, rfl, rfl, by simp, Or.inr rfl⟩

theorem removeClips_fields (s : animMgr) (r : View) :
    (s.removeClips r).clipPool = eraseRange s.clipPool r.offset r.size ∧
    (s.removeClips r).curvePool = s.curvePool ∧
    (s.removeClips r).numKeys = s.numKeys ∧
    (s.removeClips r).keyPool = s.keyPool ∧
    (s.removeClips r).matrixPool = s.matrixPool ∧
    (s.removeClips r).skelPool = s.skelPool ∧
    (s.removeClips r).instPool = s.instPool ∧
    (s.removeClips r).resContainer = s.resContainer ∧
    (s.removeClips r).libPool = s.libPool.mapValues
      (fun lib => { lib with Clips := lib.Clips.FillGap r.offset r.size }) :=
  ⟨rfl, rfl, rfl, rfl, rfl, rfl, rfl, rfl, rfl⟩

theorem removeCurves_fields (s : animMgr) (r : View) :
    (s.removeCurves r).curvePool = eraseRange s.curvePool r.offset r.size ∧
    (s.removeCurves r).clipPool = s.clipPool.map
      (fun clip => { clip with Curves := clip.Curves.FillGap r.offset r.size }) ∧
    (s.removeCurves r).numKeys = s.numKeys ∧
    (s.removeCurves r).keyPool = s.keyPool ∧
    (s.removeCurves r).matrixPool = s.matrixPool ∧
    (s.removeCurves r).skelPool = s.skelPool ∧
    (s.removeCurves r).instPool = s.instPool ∧
    (s.removeCurves r).resContainer = s.resContainer ∧
    (s.removeCurves r).libPool = s.libPool.mapValues
      (fun lib => { lib with Curves := lib.Curves.FillGap r.offset r.size }) :=
  ⟨rfl, rfl, rfl, rfl, rfl, rfl, rfl, rfl, rfl⟩

theorem destroyLibrary_of_lookup (s : animMgr) (id : Id) (lib : AnimLibrary)
    (h : s.libPool.lookup id = some lib) :
    s.destroyLibrary id =
      { ((s.removeClips lib.Clips).removeCurves lib.Curves).removeKeys lib.Keys with
          libPool := (((s.removeClips lib.Clips).removeCurves lib.Curves).removeKeys
            lib.Keys).libPool.unassign id } := by
  unfold animMgr.destroyLibrary
  rw [h]

theorem destroy_single_lib (s : animMgr) (L : Nat) (a : Id)
    (h2 : (s.resContainer.regRemove L).2 = [a]) (hty : a.ty = resTypeLib) :
    s.destroy L =
      ({ s with resContainer := (s.resContainer.regRemove L).1 } : animMgr).destroyLibrary a := by
  simp only [animMgr.destroy]
  rw [h2, List.foldl_cons, List.foldl_nil, if_pos hty]

theorem unassign_after_mapValues2 {T : Type} (p : ResourcePool T) (f g : T → T)
    (a : Id) (t slot gen : Nat) (ha : a = Id.mk t slot gen) (st : ResourceState) (v : T)
    (h : p.slots.get? slot = some (gen, some (st, v))) :
    (((p.mapValues f).mapValues g).unassign a).usedCount = p.usedCount - 1 := by
  have h1 := mapValues_get?_some p f slot gen st v h
  have h2 := mapValues_get?_some (p.mapValues f) g slot gen st (f v) h1
  rw [ha, unassign_usedCount _ t slot gen st (g (f v)) h2,
    mapValues_usedCount, mapValues_usedCount]

theorem unassign_after_mapValues3 {T : Type} (p : ResourcePool T) (f g j : T → T)
    (a : Id) (t slot gen : Nat) (ha : a = Id.mk t slot gen) (st : ResourceState) (v : T)
    (h : p.slots.get? slot = some (gen, some (st, v))) :
    ((((p.mapValues f).mapValues g).mapValues j).unassign a).usedCount = p.usedCount - 1 := by
  have h1 := mapValues_get?_some p f slot gen st v h
  have h2 := mapValues_get?_some (p.mapValues f) g slot gen st (f v) h1
  have h3 := mapValues_get?_some ((p.mapValues f).mapValues g) j slot gen st (g (f v)) h2
  rw [ha, unassign_usedCount _ t slot gen st (j (g (f v))) h3,
    mapValues_usedCount, mapValues_usedCount, mapValues_usedCount]

/-- Per-field consequences of a successful `createLibrary` call (the
projections of `createLibrary_success_shape`). -/
theorem createLibrary_success_fields (s : animMgr) (setup : AnimLibrarySetup) (k : Nat)
    (hreg : s.resContainer.regLookup setup.Name = Id.invalid)
    (hc1 : ¬ s.clipPool.length + setup.Clips.length > s.clipCapacity)
    (hc2 : ¬ s.curvePool.length + setup.CurveLayout.length > s.curveCapacity)
    (hk : libNumKeysOf setup.CurveLayout setup.Clips = some k)
    (hc3 : ¬ s.numKeys + k > s.keyCapacity) :
    (s.createLibrary setup).2 = s.libPool.allocId.2 ∧
    (s.createLibrary setup).1.libPool
      = (s.libPool.allocId.1.assign s.libPool.allocId.2 ResourceState.Setup
          (builtLib s setup k)).updateState s.libPool.allocId.2 ResourceState.Valid ∧
    (s.createLibrary setup).1.clipPool = (builtAcc s setup).clipPool ∧
    (s.createLibrary setup).1.curvePool = (builtAcc s setup).curvePool ∧
    (s.createLibrary setup).1.numKeys = s.numKeys + k ∧
    (s.createLibrary setup).1.matrixPool = s.matrixPool ∧
    (s.createLibrary setup).1.skelPool = s.skelPool ∧
    (s.createLibrary setup).1.instPool = s.instPool ∧
    (s.createLibrary setup).1.resContainer
      = s.resContainer.regAdd (some setup.Name) s.libPool.allocId.2
          s.resContainer.peekLabel := by
  rw [createLibrary_success_shape s setup k hreg hc1 hc2 hk hc3]
  exact ⟨rfl, rfl, rfl, rfl, rfl, rfl, rfl, rfl, rfl⟩

/-- C4: after `PushLabel; createLibrary(S); destroy(label)` with a valid,
unregistered setup `S` that fits the pools, `numKeys` and the clip,
curve and matrix pool sizes equal their pre-call values, the library
handle pool's used-slot count is restored, and the skeleton and instance
handle pools are untouched. -/
theorem createLibrary_destroy_identity (s : animMgr) (setup : AnimLibrarySetup) (k : Nat)
    (htag : s.libPool.typeTag = resTypeLib)
    (hfresh : ∀ e ∈ s.resContainer.registry, e.label ≠ s.resContainer.nextLabel)
    (hreg : s.resContainer.regLookup setup.Name = Id.invalid)
    (hc1 : s.clipPool.length + setup.Clips.length ≤ s.clipCapacity)
    (hc2 : s.curvePool.length + setup.CurveLayout.length ≤ s.curveCapacity)
    (hk : libNumKeysOf setup.CurveLayout setup.Clips = some k)
    (hc3 : s.numKeys + k ≤ s.keyCapacity) :
    ((s.pushLabel.createLibrary setup).1.destroy s.resContainer.nextLabel).numKeys
        = s.numKeys ∧
    ((s.pushLabel.createLibrary setup).1.destroy s.resContainer.nextLabel).clipPool.length
        = s.clipPool.length ∧
    ((s.pushLabel.createLibrary setup).1.destroy s.resContainer.nextLabel).curvePool
        = s.curvePool ∧
    ((s.pushLabel.createLibrary setup).1.destroy s.resContainer.nextLabel).matrixPool
        = s.matrixPool ∧
    ((s.pushLabel.createLibrary setup).1.destroy s.resContainer.nextLabel).libPool.usedCount
        = s.libPool.usedCount ∧
    ((s.pushLabel.createLibrary setup).1.destroy s.resContainer.nextLabel).skelPool
        = s.skelPool ∧
    ((s.pushLabel.createLibrary setup).1.destroy s.resContainer.nextLabel).instPool
        = s.instPool := by
  obtain ⟨hc2q, hclib, hcclip, hccurve, hcnum, hcmat, hcskel, hcinst, hcrc⟩ :=
    createLibrary_success_fields s.pushLabel setup k
      (show (s.pushLabel).resContainer.regLookup setup.Name = Id.invalid from hreg)
      (show ¬ s.clipPool.length + setup.Clips.length > s.clipCapacity by omega)
      (show ¬ s.curvePool.length + setup.CurveLayout.length > s.curveCapacity by omega)
      hk
      (show ¬ s.numKeys + k > s.keyCapacity by omega)
  obtain ⟨htagQ, hcountQ, hlookQ, slot, gen, hidQ, hgetQ, hotherQ⟩ :=
    install_spec s.pushLabel.libPool (builtLib s.pushLabel setup k)
  obtain ⟨nc, nu, hbc1, hbc2, hbc3, hbc4⟩ :=
    buildClips_spec setup.CurveLayout setup.Clips
      ⟨s.pushLabel.clipPool, s.pushLabel.curvePool, [], s.pushLabel.numKeys⟩
  have hacc1 : (builtAcc s.pushLabel setup).clipPool = s.clipPool ++ nc := hbc1
  have hacc2 : (builtAcc s.pushLabel setup).curvePool = s.curvePool ++ nu := hbc2
  have hnu : nu.length = setup.Clips.length * setup.CurveLayout.length := by
    rw [hbc4]
    exact libNumKeysOf_curvecount setup.CurveLayout setup.Clips k hk
  set C := (s.pushLabel.createLibrary setup).1 with hCdef
  set a2 := s.pushLabel.libPool.allocId.2 with ha2def
  set lb := builtLib s.pushLabel setup k with hlbdef
  have hfilter2 : (C.resContainer.regRemove s.resContainer.nextLabel).2 = [a2] := by
    rw [hcrc]
    have hnil : s.resContainer.registry.filter
        (fun (e : RegEntry) => decide (e.label = s.resContainer.nextLabel)) = [] := by
      refine List.filter_eq_nil.mpr ?_
      intro e he
      simpa using hfresh e he
    show (((s.resContainer.registry
        ++ [(⟨some setup.Name, a2, s.resContainer.nextLabel⟩ : RegEntry)]).filter
          (fun (e : RegEntry) => decide (e.label = s.resContainer.nextLabel))).map
        (fun (e : RegEntry) => e.id)) = [a2]
    rw [List.filter_append, hnil]
    simp
  have hty2 : a2.ty = resTypeLib := by
    rw [hidQ]
    exact htag
  have hdes := destroy_single_lib C s.resContainer.nextLabel a2 hfilter2 hty2
  set X : animMgr :=
    { C with resContainer := (C.resContainer.regRemove s.resContainer.nextLabel).1 }
    with hXdef
  have hXlib : X.libPool.lookup a2 = some lb := by
    show C.libPool.lookup a2 = some lb
    rw [hclib]
    exact hlookQ
  have hdl := destroyLibrary_of_lookup X a2 lb hXlib
  have hvClips : lb.Clips = (⟨s.clipPool.length, setup.Clips.length⟩ : View) := rfl
  have hvCurves : lb.Curves = (⟨s.curvePool.length,
    setup.Clips.length * setup.CurveLayout.length⟩ : View) := rfl
  have hvKeys : lb.Keys = (⟨s.numKeys, k⟩ : View) := rfl
  rw [hvClips, hvCurves, hvKeys] at hdl
  set A := X.removeClips ⟨s.clipPool.length, setup.Clips.length⟩ with hAdef
  set B := A.removeCurves ⟨s.curvePool.length,
    setup.Clips.length * setup.CurveLayout.length⟩ with hBdef
  set W := B.removeKeys ⟨s.numKeys, k⟩ with hWdef
  have hfin : C.destroy s.resContainer.nextLabel
      = { W with libPool := W.libPool.unassign a2 } := by
    rw [hdes, hdl]
  obtain ⟨ra1, ra2, ra3, ra4, ra5, ra6, ra7, ra8, ra9⟩ :=
    removeClips_fields X ⟨s.clipPool.length, setup.Clips.length⟩
  obtain ⟨rb1, rb2, rb3, rb4, rb5, rb6, rb7, rb8, rb9⟩ :=
    removeCurves_fields A ⟨s.curvePool.length,
      setup.Clips.length * setup.CurveLayout.length⟩
  obtain ⟨rk1, rk2, rk3, rk4, rk5, rk6, rk7⟩ :=
    removeKeys_other_fields B ⟨s.numKeys, k⟩
  rw [← hAdef] at ra1 ra2 ra3 ra4 ra5 ra6 ra7 ra8 ra9
  rw [← hBdef] at rb1 rb2 rb3 rb4 rb5 rb6 rb7 rb8 rb9
  rw [← hWdef] at rk1 rk2 rk3 rk4 rk5 rk6 rk7
  have hAclip : A.clipPool = s.clipPool := by
    rw [ra1]
    show eraseRange C.clipPool s.clipPool.length setup.Clips.length = s.clipPool
    rw [hcclip, hacc1, ← hbc3]
    exact eraseRange_append_exact s.clipPool nc
  have hBcurve : B.curvePool = s.curvePool := by
    rw [rb1, ra2]
    show eraseRange C.curvePool s.curvePool.length
      (setup.Clips.length * setup.CurveLayout.length) = s.curvePool
    rw [hccurve, hacc2, ← hnu]
    exact eraseRange_append_exact s.curvePool nu
  have hBnum : B.numKeys = s.numKeys + k := by
    rw [rb3, ra3]
    show C.numKeys = s.numKeys + k
    rw [hcnum]
    rfl
  rw [hfin]
  refine ⟨?_, ?_, ?_, ?_, ?_, ?_, ?_⟩
  · show W.numKeys = s.numKeys
    rw [hWdef, removeKeys_numKeys]
    show (if k = 0 then B.numKeys else B.numKeys - k) = s.numKeys
    rw [hBnum]
    split <;> omega
  · show W.clipPool.length = s.clipPool.length
    rw [rk6, rb2, List.length_map, hAclip]
  · show W.curvePool = s.curvePool
    rw [rk1, hBcurve]
  · show W.matrixPool = s.matrixPool
    rw [rk2, rb5, ra5]
    show C.matrixPool = s.matrixPool
    exact hcmat
  · show (W.libPool.unassign a2).usedCount = s.libPool.usedCount
    have hXC : X.libPool = C.libPool := rfl
    rcases rk7 with h7 | h7
    · rw [h7, rb9, ra9, hXC, hclib]
      refine (unassign_after_mapValues2 _ _ _ a2 _ slot gen hidQ _ _ hgetQ).trans ?_
      rw [hcountQ]
      exact Nat.add_sub_cancel s.libPool.usedCount 1
    · rw [h7, rb9, ra9, hXC, hclib]
      refine (unassign_after_mapValues3 _ _ _ _ a2 _ slot gen hidQ _ _ hgetQ).trans ?_
      rw [hcountQ]
      exact Nat.add_sub_cancel s.libPool.usedCount 1
  · show W.skelPool = s.skelPool
    rw [rk3, rb6, ra6]
    show C.skelPool = s.skelPool
    exact hcskel
  · show W.instPool = s.instPool
    rw [rk4, rb7, ra7]
    show C.instPool = s.instPool
    exact hcinst

/-- Witness for C4: on the fresh `demoMgr`, pushing a label, creating
`c4Setup` (key budget 3) and destroying the label restores `numKeys`,
the clip pool size and the used-slot count. -/
theorem createLibrary_destroy_identity_witness :
    libNumKeysOf c4Setup.CurveLayout c4Setup.Clips = some 3 ∧
    ((demoMgr.pushLabel.createLibrary c4Setup).1.destroy
        demoMgr.resContainer.nextLabel).numKeys = demoMgr.numKeys ∧
    ((demoMgr.pushLabel.createLibrary c4Setup).1.destroy
        demoMgr.resContainer.nextLabel).clipPool.length = demoMgr.clipPool.length ∧
    ((demoMgr.pushLabel.createLibrary c4Setup).1.destroy
        demoMgr.resContainer.nextLabel).libPool.usedCount = demoMgr.libPool.usedCount := by
  have h := createLibrary_destroy_identity demoMgr c4Setup 3 (by decide) (by decide)
    (by decide) (by decide) (by decide) (by decide) (by decide)
  exact ⟨by decide, h.1, h.2.1, h.2.2.2.2.1⟩

end Oryol
